import Mathlib

/-!
Shallow embedding of the gh-sentinel core pipeline (log analyzer,
diagnosis-reply parser, patch engine) for verification of its
natural-language specification.

Conventions of the embedding:
* Go strings are Lean `String`s; all character-level operations are defined
  over `List Char` (via `String.data`) so that every definition is
  executable by the kernel.
* Case folding (Go's `(?i)` regex flag, `strings.ToUpper`/`ToLower`) is
  modelled on the ASCII range, which covers every literal appearing in the
  source patterns and every input used in the development.
* Go regular expressions are embedded as explicit regex syntax trees
  (`Rx`) matched with Brzozowski derivatives; `regexp.MatchString`'s
  unanchored search is `rxSearch`.
* The filesystem is a partial map `String → Option String`; `none` models
  Go's `os.IsNotExist` outcome.  Writes always succeed in the model; the
  clock (`time.Now`) is an explicit `timestamp` parameter.
* Go float64 constants (0.3/0.6/0.8/0.9) are embedded as exact rationals;
  the code only assigns and compares these literals, so no floating-point
  arithmetic is lost.
* Go map iteration order (used by `generateSummary`) is unspecified; it is
  modelled by an explicit `catOrder` argument constrained to be a
  permutation of the map's key set (`ValidIterOrder`).
-/

deriving instance DecidableEq for Except

namespace GhSentinel

/-- ASCII lower-casing of one character (models Go case folding on the
ASCII range). -/
def lowerChar (c : Char) : Char :=
  if 'A' ≤ c ∧ c ≤ 'Z' then Char.ofNat (c.toNat + 32) else c

/-- ASCII upper-casing of one character. -/
def upperChar (c : Char) : Char :=
  if 'a' ≤ c ∧ c ≤ 'z' then Char.ofNat (c.toNat - 32) else c

/-- ASCII lower-casing of a string. -/
def lowerStr (s : String) : String := ⟨s.data.map lowerChar⟩

/-- ASCII upper-casing of a string (models `strings.ToUpper`). -/
def upperStr (s : String) : String := ⟨s.data.map upperChar⟩

/-- Whitespace characters: the ASCII white space class, which is both
Go's regexp `\s` class and the ASCII fragment of `unicode.IsSpace`. -/
def isSpaceChar (c : Char) : Bool :=
  c = ' ' || c = '\t' || c = '\n' || c = '\x0b' || c = '\x0c' || c = '\r'

/-- Splitting a character list at a separator character; models
`strings.Split(s, sep)` for a one-character separator (always returns at
least one, possibly empty, piece). -/
def splitOnCharL (sep : Char) : List Char → List (List Char)
  | [] => [[]]
  | c :: cs =>
    let r := splitOnCharL sep cs
    if c = sep then [] :: r
    else
      match r with
      | h :: t => (c :: h) :: t
      | [] => [[c]]

/-- Models `strings.Split(s, "\n")`. -/
def splitLines (s : String) : List String :=
  (splitOnCharL '\n' s.data).map (fun l => ⟨l⟩)

/-- Models `strings.TrimSpace` on a character list. -/
def trimSpaceL (l : List Char) : List Char :=
  ((l.dropWhile isSpaceChar).reverse.dropWhile isSpaceChar).reverse

/-- Models `strings.TrimSpace`. -/
def trimSpace (s : String) : String := ⟨trimSpaceL s.data⟩

/-- Boolean list-prefix test. -/
def isPrefixL : List Char → List Char → Bool
  | [], _ => true
  | _ :: _, [] => false
  | a :: as, b :: bs => a = b && isPrefixL as bs

/-- Substring containment on character lists (needle, then haystack). -/
def containsSubL (needle : List Char) : List Char → Bool
  | [] => isPrefixL needle []
  | c :: cs => isPrefixL needle (c :: cs) || containsSubL needle cs

/-- Models `strings.Contains(s, sub)`. -/
def strContains (s sub : String) : Bool := containsSubL sub.data s.data

/-- Models `strings.HasPrefix(s, pre)`. -/
def strStartsWith (s pre : String) : Bool := isPrefixL pre.data s.data

/-- Models `strings.TrimPrefix(s, pre)`. -/
def goTrimPre (s pre : String) : String :=
  if strStartsWith s pre then ⟨s.data.drop pre.data.length⟩ else s

/-- The cutset `"[]`+backtick+`* "'"` used by the reply parser, written with
escapes: left bracket, right bracket, backtick, star, space, double quote,
single quote. -/
def cutsetChars : List Char := "\x5b\x5d\x60\x2a\x20\x22\x27".data

/-- Trimming characters of a cutset from both ends of a list; models
`strings.Trim(s, cutset)`. -/
def trimSetL (cs : List Char) (l : List Char) : List Char :=
  ((l.dropWhile (fun c => cs.contains c)).reverse.dropWhile
    (fun c => cs.contains c)).reverse

/-- Models  strings.Trim(s, "[]`* \"'")  from the reply parser. -/
def trimDecoration (s : String) : String := ⟨trimSetL cutsetChars s.data⟩

/-- One-character replacement underlying
`strings.ReplaceAll(path, "\\", "/")`. -/
def slashChar (c : Char) : Char := if c = '\\' then '/' else c

/-- Models `strings.ReplaceAll(path, "\\", "/")`. -/
def backslashToSlash (s : String) : String := ⟨s.data.map slashChar⟩

/-- Models `filepath.Base` for slash-separated paths: strip trailing
slashes, then keep the part after the last slash; empty path gives ".". -/
def baseName (p : String) : String :=
  if p = "" then "."
  else
    let l := p.data.reverse.dropWhile (fun c => c = '/')
    if l = [] then "/" else ⟨(l.takeWhile (fun c => c ≠ '/')).reverse⟩

/-- Error taxonomy of the `errors` package. -/
inductive ErrorType where
  | unknown | github | copilot | filesystem | validation | network | auth
  deriving DecidableEq, Repr

/-- The `SentinelError` record (the wrapped Go `error` value is dropped;
only its presence ever mattered to callers, never its contents). -/
structure SentinelError where
  etype : ErrorType
  Op : String
  Path : String
  Message : String
  deriving DecidableEq, Repr

/-- Models `errors.ValidationError(op, message)`. -/
def ValidationError (op message : String) : SentinelError :=
  { etype := ErrorType.validation, Op := op, Path := "", Message := message }

/-- Models `errors.FilesystemError(op, path, err)`. -/
def FilesystemError (op path : String) : SentinelError :=
  { etype := ErrorType.filesystem, Op := op, Path := path
    Message := "filesystem operation failed" }

/-- The configuration fields consumed by the patch engine. -/
structure Config where
  BackupEnabled : Bool
  BackupSuffix : String
  deriving DecidableEq, Repr

/-- The patcher's `PatchRequest`. -/
structure PatchRequest where
  FilePath : String
  NewContent : String
  ValidateYAML : Bool
  deriving DecidableEq, Repr

/-- The patcher's `PatchResult` (the Go line counts are non-negative
ints, embedded as `Nat`). -/
structure PatchResult where
  Success : Bool
  BackupPath : String
  Message : String
  LinesAdded : Nat
  LinesRemoved : Nat
  deriving DecidableEq, Repr

/-- The filesystem model: a partial map from paths to file contents. -/
def FS : Type := String → Option String

/-- Overwriting one path of the filesystem (models `os.WriteFile`, which
never fails in the model). -/
def fsWrite (fs : FS) (p c : String) : FS :=
  fun q => if q = p then some c else fs q

/-- First line (1-indexed) containing a tab character, if any; models the
tab-scanning loop of `validateYAML`. -/
def findTabLine : List String → Nat → Option Nat
  | [], _ => none
  | l :: ls, i => if strContains l "\t" then some i else findTabLine ls (i + 1)

/-- Models `Patcher.validateYAML`. -/
def validateYAML (content : String) : Except SentinelError Unit :=
  if !(strContains content "name:" || strContains content "jobs:" ||
      strContains content "on:") then
    Except.error (ValidationError "validate_yaml"
      "content doesn\x27t appear to be a valid GitHub Actions workflow")
  else
    match findTabLine (splitLines content) 1 with
    | some i => Except.error (ValidationError "validate_yaml"
        ("line " ++ toString i ++ " contains tabs (YAML requires spaces)"))
    | none => Except.ok ()

/-- Models `Patcher.calculateDiff`: the Go `originalSet`/`newSet` maps are
membership in the respective line lists; the counting loops range over the
line lists themselves (occurrences, not distinct lines). -/
def calculateDiff (original newContent : String) : Nat × Nat :=
  let originalLines := splitLines original
  let newLines := splitLines newContent
  let added := newLines.countP
    (fun line => !(decide (line ∈ originalLines)) && !(trimSpace line = ""))
  let removed := originalLines.countP
    (fun line => !(decide (line ∈ newLines)) && !(trimSpace line = ""))
  (added, removed)

/-- The backup file name `<path>.<timestamp><suffix>` built by
`createBackup`. -/
def backupFileName (cfg : Config) (filePath timestamp : String) : String :=
  filePath ++ "." ++ timestamp ++ cfg.BackupSuffix

/-- Models `Patcher.createBackup` (the backup write succeeds in the
model); returns the backup path and the updated filesystem. -/
def createBackup (cfg : Config) (fs : FS) (filePath timestamp content : String) :
    String × FS :=
  let bp := backupFileName cfg filePath timestamp
  (bp, fsWrite fs bp content)

/-- Models `Patcher.Apply`.  Returns the operation's outcome together with
the final filesystem (unchanged whenever an error is returned before any
write, exactly as in the source). -/
def Apply (cfg : Config) (fs : FS) (timestamp : String) (req : PatchRequest) :
    Except SentinelError PatchResult × FS :=
  if req.NewContent = "" then
    (Except.error (ValidationError "apply_patch" "empty patch content"), fs)
  else
    match (if req.ValidateYAML then validateYAML req.NewContent
           else Except.ok ()) with
    | Except.error e => (Except.error e, fs)
    | Except.ok _ =>
      match fs req.FilePath with
      | some originalContent =>
        let bk :=
          if cfg.BackupEnabled then
            createBackup cfg fs req.FilePath timestamp originalContent
          else ("", fs)
        let counts :=
          if originalContent.length > 0 then
            calculateDiff originalContent req.NewContent
          else (0, 0)
        let fs2 := fsWrite bk.2 req.FilePath req.NewContent
        (Except.ok
          { Success := true, BackupPath := bk.1
            Message := "Successfully patched " ++ baseName req.FilePath
            LinesAdded := counts.1, LinesRemoved := counts.2 }, fs2)
      | none =>
        let fs2 := fsWrite fs req.FilePath req.NewContent
        (Except.ok
          { Success := true, BackupPath := ""
            Message := "Successfully patched " ++ baseName req.FilePath
            LinesAdded := 0, LinesRemoved := 0 }, fs2)

/-- Models `Patcher.Rollback`: read the backup, overwrite the target. -/
def Rollback (fs : FS) (filePath backupPath : String) : Except SentinelError FS :=
  match fs backupPath with
  | none => Except.error (FilesystemError "rollback" backupPath)
  | some backupContent => Except.ok (fsWrite fs filePath backupContent)

/-- Regex syntax trees for the analyzer's patterns: empty word, character
class, concatenation, alternation, Kleene star. -/
inductive Rx where
  | eps : Rx
  | sym : (Char → Bool) → Rx
  | cat : Rx → Rx → Rx
  | alt : Rx → Rx → Rx
  | star : Rx → Rx

/-- Nullability: whether the regex accepts the empty word. -/
def nullable : Rx → Bool
  | Rx.eps => true
  | Rx.sym _ => false
  | Rx.cat a b => nullable a && nullable b
  | Rx.alt a b => nullable a || nullable b
  | Rx.star _ => true

/-- Brzozowski derivative of a regex by one character. -/
def derivC : Rx → Char → Rx
  | Rx.eps, _ => Rx.sym (fun _ => false)
  | Rx.sym p, c => if p c then Rx.eps else Rx.sym (fun _ => false)
  | Rx.cat a b, c =>
    if nullable a then Rx.alt (Rx.cat (derivC a c) b) (derivC b c)
    else Rx.cat (derivC a c) b
  | Rx.alt a b, c => Rx.alt (derivC a c) (derivC b c)
  | Rx.star a, c => Rx.cat (derivC a c) (Rx.star a)

/-- Whether some prefix of the character list matches the regex. -/
def rxPre : Rx → List Char → Bool
  | r, [] => nullable r
  | r, c :: cs => nullable r || rxPre (derivC r c) cs

/-- Unanchored search: whether some substring matches the regex. -/
def rxSearch : Rx → List Char → Bool
  | r, [] => nullable r
  | r, c :: cs => rxPre r (c :: cs) || rxSearch r cs

/-- Models `Pattern.MatchString(line)` for the analyzer's patterns: every
source pattern carries the `(?i)` flag, embedded by lower-casing the input
and writing the pattern literals in lower case. -/
def matchString (r : Rx) (s : String) : Bool :=
  rxSearch r (s.data.map lowerChar)

/-- Literal-word regex. -/
def rxLit (s : String) : Rx :=
  s.data.foldr (fun c acc => Rx.cat (Rx.sym (fun x => x = c)) acc) Rx.eps

/-- Sequencing of a list of regexes. -/
def rxSeq (l : List Rx) : Rx := l.foldr Rx.cat Rx.eps

/-- Alternation of a list of regexes (empty list matches nothing). -/
def rxAlts : List Rx → Rx
  | [] => Rx.sym (fun _ => false)
  | [r] => r
  | r :: rs => Rx.alt r (rxAlts rs)

/-- One-or-more repetition (`+`). -/
def rxPlus (r : Rx) : Rx := Rx.cat r (Rx.star r)

/-- Optional occurrence (`?`). -/
def rxOpt (r : Rx) : Rx := Rx.alt r Rx.eps

/-- The `.` class (any character except newline; the analyzer's patterns
do not set `(?s)`). -/
def rxAny : Rx := Rx.sym (fun c => c ≠ '\n')

/-- The `.*` fragment. -/
def rxAnyStar : Rx := Rx.star rxAny

/-- The `\d` class (ASCII digits in RE2). -/
def rxDigit : Rx := Rx.sym Char.isDigit

/-- The `[\w-]` class (`\w` is `[0-9A-Za-z_]` in RE2; input is
lower-cased before matching). -/
def rxWordDash : Rx := Rx.sym (fun c => c.isAlphanum || c = '_' || c = '-')

/-- The analyzer's `ErrorPattern` catalog entry. -/
structure ErrorPattern where
  Name : String
  Pattern : Rx
  Severity : String
  Suggestion : String
  Category : String

/-- Regex  (?i)Node\.js \d+ actions? (?:are|is) deprecated . -/
def rxNodeDeprecated : Rx :=
  rxSeq [rxLit "node.js ", rxPlus rxDigit, rxLit " action", rxOpt (rxLit "s"),
    rxLit " ", rxAlts [rxLit "are", rxLit "is"], rxLit " deprecated"]

/-- Regex  (?i)(?:command not found|command '[\w-]+' not found|bash: [\w-]+: command not found) . -/
def rxCommandNotFound : Rx :=
  rxAlts [rxLit "command not found",
    rxSeq [rxLit "command \x27", rxPlus rxWordDash, rxLit "\x27 not found"],
    rxSeq [rxLit "bash: ", rxPlus rxWordDash, rxLit ": command not found"]]

/-- Regex  (?i)ModuleNotFoundError:|ImportError:|No module named . -/
def rxPythonImport : Rx :=
  rxAlts [rxLit "modulenotfounderror:", rxLit "importerror:",
    rxLit "no module named"]

/-- Regex  (?i)npm ERR!|npm install failed|ENOENT.*package\.json . -/
def rxNpmInstall : Rx :=
  rxAlts [rxLit "npm err!", rxLit "npm install failed",
    rxSeq [rxLit "enoent", rxAnyStar, rxLit "package.json"]]

/-- Regex  (?i)yaml.*syntax error|invalid yaml|mapping values are not allowed . -/
def rxYamlSyntax : Rx :=
  rxAlts [rxSeq [rxLit "yaml", rxAnyStar, rxLit "syntax error"],
    rxLit "invalid yaml", rxLit "mapping values are not allowed"]

/-- Regex  (?i)permission denied|EACCES . -/
def rxPermissionDenied : Rx :=
  rxAlts [rxLit "permission denied", rxLit "eacces"]

/-- Regex  (?i)docker build.*failed|ERROR \[.*\]|failed to solve . -/
def rxDockerBuild : Rx :=
  rxAlts [rxSeq [rxLit "docker build", rxAnyStar, rxLit "failed"],
    rxSeq [rxLit "error [", rxAnyStar, rxLit "]"], rxLit "failed to solve"]

/-- Regex  (?i)test.*failed|FAIL:|âŒ.*test|\d+ failed,  (the third
alternative is the source's literal mojibake bytes). -/
def rxTestFailure : Rx :=
  rxAlts [rxSeq [rxLit "test", rxAnyStar, rxLit "failed"], rxLit "fail:",
    rxSeq [rxLit "âŒ", rxAnyStar, rxLit "test"],
    rxSeq [rxPlus rxDigit, rxLit " failed,"]]

/-- Regex  (?i)exit(?:ed)? (?:with )?code \d+|Process completed with exit code \d+ . -/
def rxExitCode : Rx :=
  rxAlts [rxSeq [rxLit "exit", rxOpt (rxLit "ed"), rxLit " ",
      rxOpt (rxLit "with "), rxLit "code ", rxPlus rxDigit],
    rxSeq [rxLit "process completed with exit code ", rxPlus rxDigit]]

/-- Regex  (?i)unexpected value|unexpected symbol|Required property is missing . -/
def rxGithubActionsSyntax : Rx :=
  rxAlts [rxLit "unexpected value", rxLit "unexpected symbol",
    rxLit "required property is missing"]

/-- The fixed `errorPatterns` catalog, in source order. -/
def errorPatterns : List ErrorPattern :=
  [{ Name := "Node.js Version Deprecated", Pattern := rxNodeDeprecated
     Severity := "HIGH"
     Suggestion := "Update to a newer Node.js version in your workflow"
     Category := "deprecation" },
   { Name := "Command Not Found", Pattern := rxCommandNotFound
     Severity := "HIGH"
     Suggestion := "Install the missing command or check PATH configuration"
     Category := "dependency" },
   { Name := "Python Import Error", Pattern := rxPythonImport
     Severity := "HIGH"
     Suggestion := "Install missing Python dependencies or check requirements.txt"
     Category := "dependency" },
   { Name := "NPM Install Failed", Pattern := rxNpmInstall
     Severity := "HIGH"
     Suggestion := "Check package.json or run npm install locally first"
     Category := "dependency" },
   { Name := "YAML Syntax Error", Pattern := rxYamlSyntax
     Severity := "CRITICAL"
     Suggestion := "Fix YAML indentation or syntax errors"
     Category := "syntax" },
   { Name := "Permission Denied", Pattern := rxPermissionDenied
     Severity := "MEDIUM"
     Suggestion := "Add execute permissions or check file ownership"
     Category := "permissions" },
   { Name := "Docker Build Failed", Pattern := rxDockerBuild
     Severity := "HIGH"
     Suggestion := "Check Dockerfile syntax and build context"
     Category := "docker" },
   { Name := "Test Failure", Pattern := rxTestFailure
     Severity := "MEDIUM"
     Suggestion := "Review test results and fix failing tests"
     Category := "testing" },
   { Name := "Exit Code Non-Zero", Pattern := rxExitCode
     Severity := "HIGH"
     Suggestion := "Check the command output above for the actual error"
     Category := "exit_code" },
   { Name := "GitHub Actions Syntax", Pattern := rxGithubActionsSyntax
     Severity := "CRITICAL"
     Suggestion := "Fix workflow YAML syntax according to GitHub Actions schema"
     Category := "syntax" }]

/-- The analyzer's `DetectedError` record (Go `Line int` is the 1-indexed
line number, embedded as `Nat`). -/
structure DetectedError where
  Pattern : String
  Message : String
  Line : Nat
  Severity : String
  Suggestion : String
  Category : String
  deriving DecidableEq, Repr

/-- The analyzer's `Analysis` record; `Confidence` is an exact rational. -/
structure Analysis where
  Errors : List DetectedError
  Warnings : List String
  Summary : String
  Confidence : ℚ
  Category : String
  deriving DecidableEq, Repr

/-- The findings one line contributes, in catalog order (the inner loop of
`AnalyzeLogs`). -/
def lineFindings (lineNo : Nat) (line : String) : List DetectedError :=
  (errorPatterns.filter (fun p => matchString p.Pattern line)).map
    (fun p =>
      { Pattern := p.Name, Message := trimSpace line, Line := lineNo
        Severity := p.Severity, Suggestion := p.Suggestion
        Category := p.Category })

/-- The pattern-matching loop of `AnalyzeLogs`: line-major collection over
all lines (1-indexed), catalog order within a line. -/
def collectFindings (logs : String) : List DetectedError :=
  ((splitLines logs).enum).flatMap (fun p => lineFindings (p.1 + 1) p.2)

/-- Models `Analyzer.calculateConfidence`.  The Go float64 literals 0.3,
0.6, 0.8, 0.9 are the exact rationals 3/10, 6/10, 8/10, 9/10 (written via
`mkRat` so that the kernel can evaluate them). -/
def calculateConfidence (errors : List DetectedError) : ℚ :=
  if errors.length = 0 then mkRat 3 10
  else
    let criticalCount := errors.countP (fun e => e.Severity == "CRITICAL")
    if criticalCount > 0 then mkRat 9 10
    else if errors.length > 3 then mkRat 8 10
    else mkRat 6 10

/-- One rendered part of the summary: the category name when its count is
1, else "<count> <category> errors". -/
def summaryPart (errors : List DetectedError) (cat : String) : String :=
  let count := errors.countP (fun e => e.Category == cat)
  if count = 1 then cat else toString count ++ " " ++ cat ++ " errors"

/-- Models `Analyzer.generateSummary`.  The Go code iterates a
`map[string]int` of per-category counts; `catOrder` makes that iteration
order explicit. -/
def generateSummary (errors : List DetectedError) (catOrder : List String) : String :=
  if errors.length = 0 then "No errors detected"
  else "Found: " ++ String.intercalate ", " (catOrder.map (summaryPart errors))

/-- The distinct category keys of the findings (the key set of the Go
count map). -/
def categoryKeys (errors : List DetectedError) : List String :=
  (errors.map (fun e => e.Category)).dedup

/-- A `catOrder` is a possible Go map iteration order exactly when it is a
permutation of the key set. -/
@[reducible] def ValidIterOrder (errors : List DetectedError)
    (catOrder : List String) : Prop :=
  catOrder.Perm (categoryKeys errors)

/-- Models `Analyzer.AnalyzeLogs`; `catOrder` is the map iteration order
used when rendering the summary. -/
def AnalyzeLogs (logs : String) (catOrder : List String) : Analysis :=
  let errors := collectFindings logs
  if errors.length > 0 then
    { Errors := errors, Warnings := []
      Category := (errors.head?.map (fun e => e.Category)).getD ""
      Summary := generateSummary errors catOrder
      Confidence := calculateConfidence errors }
  else
    { Errors := errors, Warnings := [], Category := ""
      Summary := "No specific error patterns detected", Confidence := mkRat 3 10 }

/-- The accumulation loop of `GetTopSuggestions`: `seen` is the Go
`seen` map's key set, `acc` the suggestions gathered so far; the Go
`limit` is a signed int. -/
def topSuggestionsLoop (errors : List DetectedError) (seen acc : List String)
    (limit : Int) : List String :=
  match errors with
  | [] => acc
  | e :: rest =>
    if !(seen.contains e.Suggestion) && !(e.Suggestion == "") then
      let acc2 := acc ++ [e.Suggestion]
      if (acc2.length : Int) ≥ limit then acc2
      else topSuggestionsLoop rest (seen ++ [e.Suggestion]) acc2 limit
    else topSuggestionsLoop rest seen acc limit

/-- Models `Analyzer.GetTopSuggestions`. -/
def GetTopSuggestions (analysis : Analysis) (limit : Int) : List String :=
  if analysis.Errors.length = 0 then []
  else topSuggestionsLoop analysis.Errors [] [] limit

/-- First-occurrence deduplication of the non-empty suggestion strings, in
finding order: the order `GetTopSuggestions` emits suggestions in. -/
def firstOccur : List String → List String → List String
  | [], acc => acc
  | s :: rest, acc =>
    if s ∈ acc ∨ s = "" then firstOccur rest acc
    else firstOccur rest (acc ++ [s])

/-- The full deduplicated suggestion sequence of an analysis. -/
def suggestionOrder (errors : List DetectedError) : List String :=
  firstOccur (errors.map (fun e => e.Suggestion)) []

/-- A concrete one-finding analysis value, used as a test fixture. -/
def permissionAnalysis : Analysis :=
  { Errors := [{ Pattern := "Permission Denied", Message := "eacces",
                 Line := 1, Severity := "MEDIUM",
                 Suggestion := "Add execute permissions or check file ownership",
                 Category := "permissions" }], Warnings := [],
    Summary := "Found: permissions", Confidence := mkRat 6 10,
    Category := "permissions" }

/-- The copilot client's `DiagnosisResult`. -/
structure DiagnosisResult where
  Explanation : String
  FixedContent : String
  TargetFile : String
  Confidence : String
  deriving DecidableEq, Repr

/-- Dropping a literal pattern from the front of a list, case-sensitively;
`some rest` on success. -/
def dropLit : List Char → List Char → Option (List Char)
  | [], l => some l
  | _ :: _, [] => none
  | p :: ps, c :: cs => if c = p then dropLit ps cs else none

/-- Dropping a (lower-case) literal pattern from the front of a list,
case-insensitively (models a `(?i)` literal). -/
def dropCI : List Char → List Char → Option (List Char)
  | [], l => some l
  | _ :: _, [] => none
  | p :: ps, c :: cs => if lowerChar c = p then dropCI ps cs else none

/-- Index of the first case-sensitive occurrence of a pattern. -/
def findLit (pat : List Char) : List Char → Option Nat
  | [] => match dropLit pat [] with
          | some _ => some 0
          | none => none
  | c :: cs =>
    match dropLit pat (c :: cs) with
    | some _ => some 0
    | none => (findLit pat cs).map (fun n => n + 1)

/-- Index of the first case-insensitive occurrence of a (lower-case)
pattern. -/
def findCI (pat : List Char) : List Char → Option Nat
  | [] => match dropCI pat [] with
          | some _ => some 0
          | none => none
  | c :: cs =>
    match dropCI pat (c :: cs) with
    | some _ => some 0
    | none => (findCI pat cs).map (fun n => n + 1)

/-- Leftmost-position search of a position-wise extraction rule, as Go's
regexp `FindStringSubmatch` does for the parser's patterns. -/
def scanFirst (f : List Char → Option String) : List Char → Option String
  | [] => f []
  | c :: cs =>
    match f (c :: cs) with
    | some r => some r
    | none => scanFirst f cs

/-- Match of  (?i)CONFIDENCE:\s*([A-Z]+)  anchored at the current
position, returning the capture: under `(?i)`, `[A-Z]` is the ASCII
letter class. -/
def confAt (l : List Char) : Option String :=
  match dropCI "confidence:".data l with
  | none => none
  | some rest =>
    let letters := (rest.dropWhile isSpaceChar).takeWhile (fun c => c.isAlpha)
    if letters = [] then none else some ⟨letters⟩

/-- The capture of the first match of  (?i)CONFIDENCE:\s*([A-Z]+) . -/
def extractConfidence (s : String) : Option String := scanFirst confAt s.data

/-- The confidence field the parser settles on: the first `CONFIDENCE:`
capture upper-cased, defaulting to "MEDIUM" when the pattern is absent. -/
def confidenceOf (raw : String) : String :=
  match extractConfidence raw with
  | some w => upperStr w
  | none => "MEDIUM"

/-- Match of  (?i)FIX_TARGET:\s*([^\s\n\r]+)  anchored at the current
position, returning the capture. -/
def targetAt (l : List Char) : Option String :=
  match dropCI "fix_target:".data l with
  | none => none
  | some rest =>
    let tok := (rest.dropWhile isSpaceChar).takeWhile (fun c => !(isSpaceChar c))
    if tok = [] then none else some ⟨tok⟩

/-- The capture of the first match of  (?i)FIX_TARGET:\s*([^\s\n\r]+) . -/
def extractTarget (s : String) : Option String := scanFirst targetAt s.data

/-- Models the check
`strings.Contains(strings.ToUpper(rawResponse), "STATUS: HEALTHY")`. -/
def containsStatusHealthy (raw : String) : Bool :=
  containsSubL "STATUS: HEALTHY".data (raw.data.map upperChar)

/-- Match of  (?is)EXPLANATION:\s*(.+?)(?:FIXED_CONTENT:|$)  anchored at
the current position, returning the capture.  The greedy `\s*` is
followed by the lazy `(.+?)`: when any non-whitespace text remains the
body runs up to the first later `FIXED_CONTENT:` (or to the end); when
only whitespace remains the engine backtracks one character into it. -/
def explanationAt (l : List Char) : Option String :=
  match dropCI "explanation:".data l with
  | none => none
  | some rest =>
    let ws := rest.takeWhile isSpaceChar
    let body0 := rest.dropWhile isSpaceChar
    match body0 with
    | [] =>
      match ws.getLast? with
      | none => none
      | some c => some ⟨[c]⟩
    | b :: bs =>
      match findCI "fixed_content:".data bs with
      | some j => some ⟨b :: bs.take j⟩
      | none => some ⟨b :: bs⟩

/-- The capture of the first match of
 (?is)EXPLANATION:\s*(.+?)(?:FIXED_CONTENT:|$) . -/
def extractExplanation (s : String) : Option String :=
  scanFirst explanationAt s.data

/-- Match of the fenced-block pattern  (?s)(3 backticks)(?:yaml|yml)?\n(.*?)\n(3 backticks)
anchored at the current position, returning the capture (the alternation
tries "yaml", then "yml", then the empty tag; the lazy body ends at the
first newline-fence). -/
def fencedAt (l : List Char) : Option String :=
  match dropLit "\x60\x60\x60".data l with
  | none => none
  | some rest =>
    let tryTag : List Char → Option String := fun tag =>
      match dropLit tag rest with
      | none => none
      | some rest2 =>
        match dropLit "\n".data rest2 with
        | none => none
        | some body0 =>
          match findLit "\n\x60\x60\x60".data body0 with
          | some j => some ⟨body0.take j⟩
          | none => none
    match tryTag "yaml".data with
    | some r => some r
    | none =>
      match tryTag "yml".data with
      | some r => some r
      | none => tryTag []

/-- The capture of the first match of the fenced-block pattern. -/
def extractFixedContent (s : String) : Option String := scanFirst fencedAt s.data

/-- The replacement content the parser settles on: the first fenced-block
capture trimmed, or "" when no block is found. -/
def fixedContentOf (raw : String) : String :=
  match extractFixedContent raw with
  | some b => trimSpace b
  | none => ""

/-- The re-rooting cascade of `normalizeWorkflowPath`, applied after the
decoration trim and backslash conversion. -/
def rootCascade (p : String) : String :=
  if strStartsWith p ".github/workflows/" then p
  else if strStartsWith p "github/workflows/" then "." ++ p
  else if strStartsWith p "workflows/" then ".github/" ++ p
  else ".github/workflows/" ++ goTrimPre p "/"

/-- Models `Client.normalizeWorkflowPath`: trim decoration characters,
normalize backslashes to forward slashes, then re-root. -/
def normalizeWorkflowPath (path : String) : String :=
  rootCascade (backslashToSlash (trimDecoration path))

/-- Models `Client.parseResponse`. -/
def parseResponse (rawResponse defaultTarget : String) :
    Except SentinelError DiagnosisResult :=
  let target :=
    match extractTarget rawResponse with
    | some tok => normalizeWorkflowPath (trimDecoration tok)
    | none => defaultTarget
  let confidence := confidenceOf rawResponse
  if confidence = "HEALTHY" || containsStatusHealthy rawResponse then
    Except.ok
      { Explanation := "Workflow appears healthy according to AI analysis"
        FixedContent := "", TargetFile := target, Confidence := confidence }
  else
    let explanation :=
      match extractExplanation rawResponse with
      | some e => trimSpace e
      | none => rawResponse
    let fixedContent := fixedContentOf rawResponse
    if fixedContent = "" && !(confidence == "HEALTHY") then
      Except.error (ValidationError "parse_copilot_response"
        "no actionable fix found in AI response")
    else
      Except.ok
        { Explanation := explanation, FixedContent := fixedContent
          TargetFile := target, Confidence := confidence }

/-- Spec-side diff policy, stated for comparison with `calculateDiff`:
"build the set of distinct non-blank lines per version; a new-side line
absent from the original set counts as added; an original-side line
absent from the new set counts as removed; repeated/reordered identical
lines are not double-counted". -/
def specDiffCounts (original newContent : String) : Nat × Nat :=
  let originalLines := (splitLines original).dedup
  let newLines := (splitLines newContent).dedup
  (newLines.countP
     (fun line => !(decide (line ∈ originalLines)) && !(trimSpace line = "")),
   originalLines.countP
     (fun line => !(decide (line ∈ newLines)) && !(trimSpace line = "")))

end GhSentinel

namespace GhSentinel

/-! Helper lemmas. -/

/-- The backup path strictly extends the target path, so the two are
distinct. -/
theorem backupFileName_ne (cfg : Config) (p ts : String) :
    backupFileName cfg p ts ≠ p := by
  intro h
  have hlen := congrArg String.length h
  have hdot : (("." : String)).length = 1 := rfl
  simp [backupFileName, String.length_append, hdot] at hlen
  omega

/-- C3: Whenever Apply(path, content) succeeds having taken a backup
(returned BackupPath non-empty), a subsequent Rollback(path, BackupPath)
restores the target file to the byte-exact content it held before the
Apply call. -/
theorem apply_then_rollback_restores (cfg : Config) (fs : FS) (ts : String)
    (req : PatchRequest) (res : PatchResult)
    (h : (Apply cfg fs ts req).1 = Except.ok res) (hb : res.BackupPath ≠ "") :
    ∃ fs2, Rollback (Apply cfg fs ts req).2 req.FilePath res.BackupPath =
        Except.ok fs2 ∧ fs2 req.FilePath = fs req.FilePath := by
  by_cases hne : req.NewContent = ""
  · rw [Apply] at h
    simp [hne] at h
  · cases hval : (if req.ValidateYAML then validateYAML req.NewContent
        else Except.ok ()) with
    | error e =>
      rw [Apply] at h
      simp [hne, hval] at h
    | ok u =>
      cases horig : fs req.FilePath with
      | none =>
        rw [Apply] at h
        simp [hne, hval, horig] at h
        rw [← h] at hb
        simp at hb
      | some orig =>
        cases hbe : cfg.BackupEnabled with
        | false =>
          rw [Apply] at h
          simp [hne, hval, horig, hbe, createBackup] at h
          rw [← h] at hb
          simp at hb
        | true =>
          rw [Apply] at h
          simp [hne, hval, horig, hbe, createBackup] at h
          have hnp := backupFileName_ne cfg req.FilePath ts
          subst h
          rw [Apply]
          simp [hne, hval, horig, hbe, createBackup]
          refine ⟨fsWrite
            (fsWrite (fsWrite fs (backupFileName cfg req.FilePath ts)
              orig) req.FilePath req.NewContent) req.FilePath orig, ?_, ?_⟩
          · rw [Rollback]
            simp [fsWrite, hnp]
          · simp [fsWrite, horig]

/-- Witness for C3: a concrete successful patch with a backup, rolled
back. -/
theorem apply_then_rollback_restores_witness :
    ∃ fs2,
      Rollback
        (Apply { BackupEnabled := true, BackupSuffix := ".sentinel.bak" }
          (fun p => if p = "w.yml" then some "name: CI\n" else none)
          "20240101_000000"
          { FilePath := "w.yml", NewContent := "name: CI2\n",
            ValidateYAML := true }).2
        "w.yml" "w.yml.20240101_000000.sentinel.bak" = Except.ok fs2 ∧
      fs2 "w.yml" =
        (fun p => if p = "w.yml" then some "name: CI\n" else none) "w.yml" :=
  apply_then_rollback_restores
    { BackupEnabled := true, BackupSuffix := ".sentinel.bak" }
    (fun p => if p = "w.yml" then some "name: CI\n" else none)
    "20240101_000000"
    { FilePath := "w.yml", NewContent := "name: CI2\n", ValidateYAML := true }
    { Success := true, BackupPath := "w.yml.20240101_000000.sentinel.bak",
      Message := "Successfully patched w.yml", LinesAdded := 1,
      LinesRemoved := 1 }
    (by decide) (by decide)

/-- C4: a patch request with validation enabled whose content contains
none of the required top-level markers fails with a ValidationError
before any disk access: the filesystem is unchanged. -/
theorem apply_validation_failure_no_side_effects (cfg : Config) (fs : FS)
    (ts : String) (req : PatchRequest) (hv : req.ValidateYAML = true)
    (h1 : strContains req.NewContent "name:" = false)
    (h2 : strContains req.NewContent "jobs:" = false)
    (h3 : strContains req.NewContent "on:" = false) :
    (∃ e, (Apply cfg fs ts req).1 = Except.error e ∧
      e.etype = ErrorType.validation) ∧
    (Apply cfg fs ts req).2 = fs := by
  by_cases hne : req.NewContent = ""
  · rw [Apply]
    simp [hne]
    rfl
  · have hval : validateYAML req.NewContent = Except.error (ValidationError
        "validate_yaml"
        "content doesn\x27t appear to be a valid GitHub Actions workflow") := by
      rw [validateYAML]
      simp [h1, h2, h3]
    rw [Apply]
    simp [hne, hv, hval]
    rfl

/-- Witness for C4: a concrete marker-free content is rejected with the
filesystem untouched. -/
theorem apply_validation_failure_no_side_effects_witness :
    (∃ e, (Apply { BackupEnabled := true, BackupSuffix := ".sentinel.bak" }
        (fun p => if p = "w.yml" then some "name: CI\n" else none) "ts"
        { FilePath := "w.yml", NewContent := "hello world",
          ValidateYAML := true }).1 = Except.error e ∧
      e.etype = ErrorType.validation) ∧
    (Apply { BackupEnabled := true, BackupSuffix := ".sentinel.bak" }
        (fun p => if p = "w.yml" then some "name: CI\n" else none) "ts"
        { FilePath := "w.yml", NewContent := "hello world",
          ValidateYAML := true }).2 =
      (fun p => if p = "w.yml" then some "name: CI\n" else none) :=
  apply_validation_failure_no_side_effects
    { BackupEnabled := true, BackupSuffix := ".sentinel.bak" }
    (fun p => if p = "w.yml" then some "name: CI\n" else none) "ts"
    { FilePath := "w.yml", NewContent := "hello world", ValidateYAML := true }
    (by decide) (by decide) (by decide) (by decide)

/-- C8: a patch whose target path does not exist and whose content passes
the non-empty and structural checks succeeds with no backup and zero
counts; absence of the target is a non-error outcome. -/
theorem apply_missing_target_succeeds (cfg : Config) (fs : FS) (ts : String)
    (req : PatchRequest) (hmiss : fs req.FilePath = none)
    (hne : req.NewContent ≠ "")
    (hok : validateYAML req.NewContent = Except.ok ()) :
    ∃ res, (Apply cfg fs ts req).1 = Except.ok res ∧ res.Success = true ∧
      res.BackupPath = "" ∧ res.LinesAdded = 0 ∧ res.LinesRemoved = 0 := by
  have hval : (if req.ValidateYAML then validateYAML req.NewContent
      else Except.ok ()) = Except.ok () := by
    cases req.ValidateYAML <;> simp [hok]
  rw [Apply]
  simp [hne, hval, hmiss]

/-- Witness for C8: patching a concrete absent path. -/
theorem apply_missing_target_succeeds_witness :
    ∃ res, (Apply { BackupEnabled := true, BackupSuffix := ".sentinel.bak" }
        (fun _ => none) "ts"
        { FilePath := "w.yml", NewContent := "name: CI\n",
          ValidateYAML := true }).1 = Except.ok res ∧ res.Success = true ∧
      res.BackupPath = "" ∧ res.LinesAdded = 0 ∧ res.LinesRemoved = 0 :=
  apply_missing_target_succeeds
    { BackupEnabled := true, BackupSuffix := ".sentinel.bak" }
    (fun _ => none) "ts"
    { FilePath := "w.yml", NewContent := "name: CI\n", ValidateYAML := true }
    rfl (by decide) (by decide)

/-- Counterexample to C5: the code counts occurrences, not distinct
lines.  With original "a" and new "b\nb" the repeated absent line "b" is
counted twice (Apply reports LinesAdded = 2), while the spec's
distinct-line policy counts it once. -/
theorem calculateDiff_distinct_counterexample :
    (Apply { BackupEnabled := false, BackupSuffix := ".sentinel.bak" }
        (fun p => if p = "w.yml" then some "a" else none) "ts"
        { FilePath := "w.yml", NewContent := "b\nb",
          ValidateYAML := false }).1 =
      Except.ok
        { Success := true, BackupPath := "",
          Message := "Successfully patched w.yml", LinesAdded := 2,
          LinesRemoved := 1 } ∧
    specDiffCounts "a" "b\nb" = (1, 1) ∧ (2 : Nat) ≠ 1 :=
  ⟨by decide, by decide, by decide⟩

/-- C5 (amended): the counts follow an occurrence-based line-set policy —
a non-blank line occurrence on one side absent from the other side's line
set is counted once per occurrence; lines present in both sides are never
counted (so pure reordering yields zero counts); Apply reports exactly
`calculateDiff` whenever non-empty prior content exists. -/
theorem calculateDiff_occurrence_policy :
    (∀ o n, calculateDiff o n =
      (((splitLines n).filter (fun l =>
          !(decide (l ∈ splitLines o)) && !(trimSpace l = ""))).length,
       ((splitLines o).filter (fun l =>
          !(decide (l ∈ splitLines n)) && !(trimSpace l = ""))).length)) ∧
    (∀ o n, (splitLines o).Perm (splitLines n) → calculateDiff o n = (0, 0)) ∧
    (∀ cfg fs ts req orig res, fs req.FilePath = some orig →
      (Apply cfg fs ts req).1 = Except.ok res → orig ≠ "" →
      (res.LinesAdded, res.LinesRemoved) =
        calculateDiff orig req.NewContent) := by
  refine ⟨?_, ?_, ?_⟩
  · intro o n
    simp [calculateDiff, List.countP_eq_length_filter]
  · intro o n hperm
    have hz : ∀ (xs ys : List String), (∀ l ∈ xs, l ∈ ys) →
        xs.countP (fun l =>
          !(decide (l ∈ ys)) && !(trimSpace l = "")) = 0 := by
      intro xs ys hsub
      rw [List.countP_eq_zero]
      intro l hl
      simp [hsub l hl]
    simp only [calculateDiff, Prod.mk.injEq]
    constructor
    · exact hz _ _ (fun l hl => hperm.mem_iff.mpr hl)
    · exact hz _ _ (fun l hl => hperm.mem_iff.mp hl)
  · intro cfg fs ts req orig res horig h hne2
    have hpos : 0 < orig.length := by
      cases orig with
      | mk l =>
        cases l with
        | nil => simp at hne2
        | cons c cs => simp [String.length]
    by_cases hne : req.NewContent = ""
    · rw [Apply] at h
      simp [hne] at h
    · cases hval : (if req.ValidateYAML then validateYAML req.NewContent
          else Except.ok ()) with
      | error e =>
        rw [Apply] at h
        simp [hne, hval] at h
      | ok u =>
        rw [Apply] at h
        simp [hne, hval, horig, hpos] at h
        rw [← h]

/-- Witness for C5 (amended): a pure reordering yields zero counts, and a
concrete Apply reports exactly the occurrence-based counts. -/
theorem calculateDiff_occurrence_policy_witness :
    calculateDiff "x\ny" "y\nx" = (0, 0) ∧
    (({ Success := true, BackupPath := "",
        Message := "Successfully patched w.yml", LinesAdded := 2,
        LinesRemoved := 1 } : PatchResult).LinesAdded,
     ({ Success := true, BackupPath := "",
        Message := "Successfully patched w.yml", LinesAdded := 2,
        LinesRemoved := 1 } : PatchResult).LinesRemoved) =
      calculateDiff "a" "b\nb" :=
  ⟨calculateDiff_occurrence_policy.2.1 "x\ny" "y\nx" (by decide),
   calculateDiff_occurrence_policy.2.2
     { BackupEnabled := false, BackupSuffix := ".sentinel.bak" }
     (fun p => if p = "w.yml" then some "a" else none) "ts"
     { FilePath := "w.yml", NewContent := "b\nb", ValidateYAML := false }
     "a"
     { Success := true, BackupPath := "",
       Message := "Successfully patched w.yml", LinesAdded := 2,
       LinesRemoved := 1 }
     (by decide) (by decide) (by decide)⟩

/-- C2: for every evidence string (and any summary iteration order), the
confidence of AnalyzeLogs is exactly 0.9 when a CRITICAL-severity finding
exists, else 0.8 when more than 3 findings exist, else 0.6 when at least
one finding exists, else 0.3. -/
theorem analyzeLogs_confidence_policy (logs : String) (catOrder : List String) :
    (AnalyzeLogs logs catOrder).Confidence =
      (if (AnalyzeLogs logs catOrder).Errors.any
          (fun e => e.Severity == "CRITICAL") then mkRat 9 10
       else if 3 < (AnalyzeLogs logs catOrder).Errors.length then mkRat 8 10
       else if 0 < (AnalyzeLogs logs catOrder).Errors.length then mkRat 6 10
       else mkRat 3 10) := by
  by_cases h : 0 < (collectFindings logs).length
  · have hne : (collectFindings logs).length ≠ 0 := Nat.pos_iff_ne_zero.mp h
    rw [AnalyzeLogs]
    simp only [if_pos h]
    rw [calculateConfidence]
    simp only [if_neg hne]
    by_cases hc : 0 < (collectFindings logs).countP
        (fun e => e.Severity == "CRITICAL")
    · have hany : (collectFindings logs).any
          (fun e => e.Severity == "CRITICAL") = true := by
        rw [List.any_eq_true]
        obtain ⟨e, he, hpe⟩ := List.countP_pos_iff.mp hc
        exact ⟨e, he, hpe⟩
      simp [hany, hc]
    · have hany : (collectFindings logs).any
          (fun e => e.Severity == "CRITICAL") = false := by
        rw [List.any_eq_false]
        intro e he hpe
        exact hc (List.countP_pos_iff.mpr ⟨e, he, hpe⟩)
      simp [hany, hc, h]
  · rw [AnalyzeLogs]
    simp only [if_neg h]
    have hnil : collectFindings logs = [] :=
      List.length_eq_zero.mp (Nat.eq_zero_of_not_pos h)
    simp [hnil]

/-- Counterexample to C6: with findings in two categories, two valid map
iteration orders produce different summary strings, so two invocations of
AnalyzeLogs need not return identical Analysis values. -/
theorem analyzeLogs_not_deterministic_counterexample :
    ValidIterOrder (collectFindings "permission denied\ninvalid yaml")
      ["permissions", "syntax"] ∧
    ValidIterOrder (collectFindings "permission denied\ninvalid yaml")
      ["syntax", "permissions"] ∧
    AnalyzeLogs "permission denied\ninvalid yaml" ["permissions", "syntax"] ≠
      AnalyzeLogs "permission denied\ninvalid yaml" ["syntax", "permissions"] :=
  ⟨by decide, by decide, by decide⟩

/-- C6 (amended): AnalyzeLogs is deterministic in its findings, warnings,
confidence and dominant category; the summary is deterministic only up to
the Go map iteration order of its category groups, and in particular is
identical whenever the findings span at most one category. -/
theorem analyzeLogs_deterministic_up_to_summary_order (logs : String)
    (o1 o2 : List String) (h1 : ValidIterOrder (collectFindings logs) o1)
    (h2 : ValidIterOrder (collectFindings logs) o2) :
    (AnalyzeLogs logs o1).Errors = (AnalyzeLogs logs o2).Errors ∧
    (AnalyzeLogs logs o1).Warnings = (AnalyzeLogs logs o2).Warnings ∧
    (AnalyzeLogs logs o1).Confidence = (AnalyzeLogs logs o2).Confidence ∧
    (AnalyzeLogs logs o1).Category = (AnalyzeLogs logs o2).Category ∧
    ((categoryKeys (collectFindings logs)).length ≤ 1 →
      AnalyzeLogs logs o1 = AnalyzeLogs logs o2) := by
  have hcomp : ∀ o, (AnalyzeLogs logs o).Errors = collectFindings logs ∧
      (AnalyzeLogs logs o).Warnings = [] ∧
      (AnalyzeLogs logs o).Confidence = calculateConfidence
        (collectFindings logs) ∧
      (AnalyzeLogs logs o).Category =
        (((collectFindings logs).head?.map (fun e => e.Category)).getD "") := by
    intro o
    rw [AnalyzeLogs]
    by_cases h : 0 < (collectFindings logs).length
    · simp [h]
    · have hnil : collectFindings logs = [] :=
        List.length_eq_zero.mp (Nat.eq_zero_of_not_pos h)
      simp [h, hnil, calculateConfidence]
  refine ⟨?_, ?_, ?_, ?_, ?_⟩
  · rw [(hcomp o1).1, (hcomp o2).1]
  · rw [(hcomp o1).2.1, (hcomp o2).2.1]
  · rw [(hcomp o1).2.2.1, (hcomp o2).2.2.1]
  · rw [(hcomp o1).2.2.2, (hcomp o2).2.2.2]
  · intro hlen
    have ho : o1 = o2 := by
      have h1' : o1.Perm (categoryKeys (collectFindings logs)) := h1
      have h2' : o2.Perm (categoryKeys (collectFindings logs)) := h2
      cases hk : categoryKeys (collectFindings logs) with
      | nil =>
        rw [hk] at h1' h2'
        rw [h1'.eq_nil, h2'.eq_nil]
      | cons a t =>
        cases t with
        | nil =>
          rw [hk] at h1' h2'
          rw [List.perm_singleton.mp h1', List.perm_singleton.mp h2']
        | cons b t2 =>
          rw [hk] at hlen
          simp at hlen
    rw [ho]

/-- Witness for C6 (amended): a single-category evidence string with its
unique valid iteration order. -/
theorem analyzeLogs_deterministic_up_to_summary_order_witness :
    (AnalyzeLogs "eacces" ["permissions"]).Errors =
      (AnalyzeLogs "eacces" ["permissions"]).Errors ∧
    (AnalyzeLogs "eacces" ["permissions"]).Warnings =
      (AnalyzeLogs "eacces" ["permissions"]).Warnings ∧
    (AnalyzeLogs "eacces" ["permissions"]).Confidence =
      (AnalyzeLogs "eacces" ["permissions"]).Confidence ∧
    (AnalyzeLogs "eacces" ["permissions"]).Category =
      (AnalyzeLogs "eacces" ["permissions"]).Category ∧
    ((categoryKeys (collectFindings "eacces")).length ≤ 1 →
      AnalyzeLogs "eacces" ["permissions"] =
        AnalyzeLogs "eacces" ["permissions"]) :=
  analyzeLogs_deterministic_up_to_summary_order "eacces" ["permissions"]
    ["permissions"] (by decide) (by decide)

/-- C10: the dominant category of a non-empty analysis is the category of
the first finding in collection order, irrespective of category
frequencies. -/
theorem analyzeLogs_dominant_is_first (logs : String) (ord : List String)
    (e : DetectedError) (h : (AnalyzeLogs logs ord).Errors.head? = some e) :
    (AnalyzeLogs logs ord).Category = e.Category := by
  by_cases hp : 0 < (collectFindings logs).length
  · rw [AnalyzeLogs] at h ⊢
    simp only [if_pos hp] at h ⊢
    simp [h]
  · rw [AnalyzeLogs] at h
    simp only [if_neg hp] at h
    have hnil : collectFindings logs = [] :=
      List.length_eq_zero.mp (Nat.eq_zero_of_not_pos hp)
    rw [hnil] at h
    simp at h

/-- Witness for C10: the first finding is in "permissions" while "syntax"
has two findings, yet the dominant category is "permissions". -/
theorem analyzeLogs_dominant_is_first_witness :
    (AnalyzeLogs
        "permission denied\ninvalid yaml\nmapping values are not allowed"
        ["permissions", "syntax"]).Category =
      ({ Pattern := "Permission Denied", Message := "permission denied",
         Line := 1, Severity := "MEDIUM",
         Suggestion := "Add execute permissions or check file ownership",
         Category := "permissions" } : DetectedError).Category ∧
    (AnalyzeLogs
        "permission denied\ninvalid yaml\nmapping values are not allowed"
        ["permissions", "syntax"]).Errors.countP
      (fun e => e.Category == "syntax") = 2 ∧
    (AnalyzeLogs
        "permission denied\ninvalid yaml\nmapping values are not allowed"
        ["permissions", "syntax"]).Errors.countP
      (fun e => e.Category == "permissions") = 1 :=
  ⟨analyzeLogs_dominant_is_first
      "permission denied\ninvalid yaml\nmapping values are not allowed"
      ["permissions", "syntax"]
      { Pattern := "Permission Denied", Message := "permission denied",
        Line := 1, Severity := "MEDIUM",
        Suggestion := "Add execute permissions or check file ownership",
        Category := "permissions" }
      (by decide), by decide, by decide⟩

/-- The accumulator is always a prefix of the deduplicated sequence
`firstOccur` builds on top of it. -/
theorem firstOccur_extends (l : List String) :
    ∀ acc, acc <+: firstOccur l acc := by
  induction l with
  | nil => intro acc; exact List.prefix_refl acc
  | cons s rest ih =>
    intro acc
    rw [firstOccur]
    by_cases h : s ∈ acc ∨ s = ""
    · rw [if_pos h]
      exact ih acc
    · rw [if_neg h]
      exact (List.prefix_append acc [s]).trans (ih (acc ++ [s]))

/-- Accumulation via `firstOccur` preserves freedom from duplicates. -/
theorem firstOccur_nodup (l : List String) :
    ∀ acc, acc.Nodup → (firstOccur l acc).Nodup := by
  induction l with
  | nil => intro acc h; exact h
  | cons s rest ih =>
    intro acc h
    rw [firstOccur]
    by_cases hm : s ∈ acc ∨ s = ""
    · rw [if_pos hm]
      exact ih acc h
    · rw [if_neg hm]
      refine ih (acc ++ [s]) ?_
      simp [List.nodup_append, h]
      exact fun hmem => hm (Or.inl hmem)

/-- The suggestion loop (run with `seen` equal to the accumulator, as
`GetTopSuggestions` does) emits a prefix of the first-occurrence
deduplication of the remaining suggestions. -/
theorem topSuggestionsLoop_isPre (errors : List DetectedError) :
    ∀ acc limit, topSuggestionsLoop errors acc acc limit <+:
      firstOccur (errors.map (fun e => e.Suggestion)) acc := by
  induction errors with
  | nil =>
    intro acc limit
    rw [topSuggestionsLoop]
    exact List.prefix_refl acc
  | cons e rest ih =>
    intro acc limit
    rw [topSuggestionsLoop]
    by_cases hm : e.Suggestion ∈ acc ∨ e.Suggestion = ""
    · have hb : (!(acc.contains e.Suggestion) && !(e.Suggestion == "")) =
          false := by
        rcases hm with hmem | hemp
        · simp [hmem]
        · simp [hemp]
      rw [hb]
      simp only [List.map_cons, firstOccur, if_pos hm]
      exact ih acc limit
    · have hb : (!(acc.contains e.Suggestion) && !(e.Suggestion == "")) =
          true := by
        push_neg at hm
        simp [hm.1, hm.2]
      rw [hb]
      simp only [List.map_cons, firstOccur, if_neg hm, if_true]
      by_cases hl : ((acc ++ [e.Suggestion]).length : Int) ≥ limit
      · rw [if_pos hl]
        exact firstOccur_extends _ (acc ++ [e.Suggestion])
      · rw [if_neg hl]
        exact ih (acc ++ [e.Suggestion]) limit

/-- The suggestion loop never grows the accumulator past the limit, as
long as the accumulator starts strictly below it. -/
theorem topSuggestionsLoop_le (limit : Int) :
    ∀ (errors : List DetectedError) (seen acc : List String),
      (acc.length : Int) < limit →
      ((topSuggestionsLoop errors seen acc limit).length : Int) ≤ limit := by
  intro errors
  induction errors with
  | nil =>
    intro seen acc h
    rw [topSuggestionsLoop]
    exact le_of_lt h
  | cons e rest ih =>
    intro seen acc h
    rw [topSuggestionsLoop]
    by_cases hc : (!(seen.contains e.Suggestion) && !(e.Suggestion == "")) =
        true
    · rw [if_pos hc]
      by_cases hl : ((acc ++ [e.Suggestion]).length : Int) ≥ limit
      · rw [if_pos hl]
        simp only [List.length_append, List.length_cons, List.length_nil]
        push_cast
        omega
      · rw [if_neg hl]
        exact ih _ _ (lt_of_not_ge hl)
    · rw [if_neg hc]
      exact ih _ _ h

/-- Counterexample to C9: with a non-positive limit the bound is checked
only after the first append, so the result exceeds the requested limit. -/
theorem getTopSuggestions_limit_counterexample :
    GetTopSuggestions permissionAnalysis 0 =
      ["Add execute permissions or check file ownership"] ∧
    ¬(((GetTopSuggestions permissionAnalysis 0).length : Int) ≤ 0) :=
  ⟨by decide, by decide⟩

/-- C9 (amended): GetTopSuggestions never returns duplicates and returns
suggestions in first-occurrence order (a prefix of the deduplicated
suggestion sequence); its length never exceeds the requested limit
whenever the limit is at least 1. -/
theorem getTopSuggestions_policy (a : Analysis) (limit : Int) :
    (GetTopSuggestions a limit).Nodup ∧
    GetTopSuggestions a limit <+: suggestionOrder a.Errors ∧
    (1 ≤ limit → ((GetTopSuggestions a limit).length : Int) ≤ limit) := by
  rw [GetTopSuggestions]
  by_cases h : a.Errors.length = 0
  · rw [if_pos h]
    exact ⟨List.nodup_nil, List.nil_prefix, fun h1 => by simp; omega⟩
  · rw [if_neg h]
    refine ⟨?_, ?_, ?_⟩
    · exact ((topSuggestionsLoop_isPre a.Errors [] limit).sublist).nodup
        (firstOccur_nodup _ [] List.nodup_nil)
    · exact topSuggestionsLoop_isPre a.Errors [] limit
    · intro h1
      refine topSuggestionsLoop_le limit a.Errors [] [] ?_
      simp
      omega

/-- Witness for C9 (amended): a concrete analysis queried with limit 2. -/
theorem getTopSuggestions_policy_witness :
    (GetTopSuggestions permissionAnalysis 2).Nodup ∧
    GetTopSuggestions permissionAnalysis 2 <+:
      suggestionOrder permissionAnalysis.Errors ∧
    ((GetTopSuggestions permissionAnalysis 2).length : Int) ≤ 2 :=
  ⟨(getTopSuggestions_policy permissionAnalysis 2).1,
   (getTopSuggestions_policy permissionAnalysis 2).2.1,
   (getTopSuggestions_policy permissionAnalysis 2).2.2 (by decide)⟩

/-- Dropping a prefix by `dropWhile` commutes with a character map whose
predicate is invariant under the map. -/
theorem dropWhileMapComm (f : Char → Char) (p : Char → Bool)
    (hf : ∀ c, p (f c) = p c) :
    ∀ l : List Char, (l.map f).dropWhile p = (l.dropWhile p).map f := by
  intro l
  induction l with
  | nil => rfl
  | cons c cs ih =>
    simp only [List.map_cons, List.dropWhile_cons, hf c]
    by_cases hp : p c = true
    · simp [hp, ih]
    · simp [hp]

/-- Cutset trimming commutes with a character map that respects the
cutset. -/
theorem trimSetLMapComm (f : Char → Char) (cs : List Char)
    (hf : ∀ c, cs.contains (f c) = cs.contains c) (l : List Char) :
    trimSetL cs (l.map f) = (trimSetL cs l).map f := by
  unfold trimSetL
  rw [dropWhileMapComm f _ hf l, ← List.map_reverse,
    dropWhileMapComm f _ hf, ← List.map_reverse]

/-- Decoration trimming commutes with backslash conversion (neither slash
nor backslash is in the cutset). -/
theorem trimDecoration_backslashToSlash (s : String) :
    trimDecoration (backslashToSlash s) = backslashToSlash (trimDecoration s) := by
  have hf : ∀ c, cutsetChars.contains (slashChar c) = cutsetChars.contains c := by
    intro c
    by_cases h : c = '\\'
    · subst h; decide
    · simp [slashChar, h]
  unfold trimDecoration backslashToSlash
  exact congrArg String.mk (trimSetLMapComm slashChar cutsetChars hf s.data)

/-- Backslash conversion is idempotent. -/
theorem backslashToSlash_idem (s : String) :
    backslashToSlash (backslashToSlash s) = backslashToSlash s := by
  have hff : ∀ c, slashChar (slashChar c) = slashChar c := by
    intro c
    by_cases h : c = '\\' <;> simp [slashChar, h]
  unfold backslashToSlash
  refine congrArg String.mk ?_
  rw [List.map_map]
  exact List.map_congr_left (fun c _ => hff c)

/-- A string is a string-prefix of its own append. -/
theorem isPrefixL_self_append : ∀ l m : List Char, isPrefixL l (l ++ m) = true := by
  intro l m
  induction l with
  | nil => rfl
  | cons c cs ih => simp [isPrefixL, ih]

/-- Models that `strings.HasPrefix(pre ++ q, pre)` always holds. -/
theorem strStartsWith_append (pre q : String) :
    strStartsWith (pre ++ q) pre = true :=
  isPrefixL_self_append pre.data q.data

/-- C7: path normalization re-roots a bare filename under
".github/workflows/"; converts backslashes before rooting; and, on
decoration-free slash paths, passes an already-rooted path through
unchanged, prepends "." to a path starting at "github/workflows/", and
prepends ".github/" to a path starting at "workflows/". -/
theorem normalizeWorkflowPath_spec :
    normalizeWorkflowPath "build.yml" = ".github/workflows/build.yml" ∧
    (∀ p, normalizeWorkflowPath (backslashToSlash p) =
      normalizeWorkflowPath p) ∧
    (∀ q, trimDecoration (".github/workflows/" ++ q) =
        ".github/workflows/" ++ q →
      backslashToSlash (".github/workflows/" ++ q) =
        ".github/workflows/" ++ q →
      normalizeWorkflowPath (".github/workflows/" ++ q) =
        ".github/workflows/" ++ q) ∧
    (∀ q, trimDecoration ("github/workflows/" ++ q) =
        "github/workflows/" ++ q →
      backslashToSlash ("github/workflows/" ++ q) = "github/workflows/" ++ q →
      normalizeWorkflowPath ("github/workflows/" ++ q) =
        "." ++ ("github/workflows/" ++ q)) ∧
    (∀ q, trimDecoration ("workflows/" ++ q) = "workflows/" ++ q →
      backslashToSlash ("workflows/" ++ q) = "workflows/" ++ q →
      normalizeWorkflowPath ("workflows/" ++ q) =
        ".github/" ++ ("workflows/" ++ q)) := by
  refine ⟨by decide, ?_, ?_, ?_, ?_⟩
  · intro p
    unfold normalizeWorkflowPath
    rw [trimDecoration_backslashToSlash, backslashToSlash_idem]
  · intro q h1 h2
    unfold normalizeWorkflowPath
    rw [h1, h2, rootCascade]
    simp [strStartsWith_append]
  · intro q h1 h2
    unfold normalizeWorkflowPath
    rw [h1, h2, rootCascade]
    have c0 : strStartsWith ("github/workflows/" ++ q) ".github/workflows/" =
        false := rfl
    simp [c0, strStartsWith_append]
  · intro q h1 h2
    unfold normalizeWorkflowPath
    rw [h1, h2, rootCascade]
    have c0 : strStartsWith ("workflows/" ++ q) ".github/workflows/" =
        false := rfl
    have c1 : strStartsWith ("workflows/" ++ q) "github/workflows/" =
        false := rfl
    simp [c0, c1, strStartsWith_append]

/-- Witness for C7: the normalization cascade at concrete paths of each
shape, plus backslash conversion on a concrete backslashed path. -/
theorem normalizeWorkflowPath_spec_witness :
    normalizeWorkflowPath (backslashToSlash ".github\\workflows\\ci.yml") =
      normalizeWorkflowPath ".github\\workflows\\ci.yml" ∧
    normalizeWorkflowPath (".github/workflows/" ++ "ci.yml") =
      ".github/workflows/" ++ "ci.yml" ∧
    normalizeWorkflowPath ("github/workflows/" ++ "ci.yml") =
      "." ++ ("github/workflows/" ++ "ci.yml") ∧
    normalizeWorkflowPath ("workflows/" ++ "ci.yml") =
      ".github/" ++ ("workflows/" ++ "ci.yml") :=
  ⟨normalizeWorkflowPath_spec.2.1 ".github\\workflows\\ci.yml",
   normalizeWorkflowPath_spec.2.2.1 "ci.yml" (by decide) (by decide),
   normalizeWorkflowPath_spec.2.2.2.1 "ci.yml" (by decide) (by decide),
   normalizeWorkflowPath_spec.2.2.2.2 "ci.yml" (by decide) (by decide)⟩

/-- Counterexample to C1: a reply containing the "STATUS: HEALTHY" marker
short-circuits the parser, so a reply whose confidence is HIGH and which
has no fenced block parses successfully with empty replacement content
instead of failing with a ValidationError. -/
theorem parseResponse_healthy_marker_counterexample :
    parseResponse "CONFIDENCE: HIGH\nSTATUS: HEALTHY" "ci.yml" =
      Except.ok
        { Explanation := "Workflow appears healthy according to AI analysis"
          FixedContent := "", TargetFile := "ci.yml", Confidence := "HIGH" } ∧
    ("HIGH" : String) ≠ "HEALTHY" :=
  ⟨by decide, by decide⟩

/-- C1 (amended): when the extracted confidence (default MEDIUM) is not
HEALTHY, the reply does not contain the healthy-status marker, and no
non-empty replacement content is extracted, parsing fails with a
ValidationError; conversely, every successfully parsed result whose
confidence is not HEALTHY from a marker-free reply has non-empty
replacement content. -/
theorem parseResponse_requires_substantiated_fix (raw d : String) :
    (confidenceOf raw ≠ "HEALTHY" → containsStatusHealthy raw = false →
      fixedContentOf raw = "" →
      parseResponse raw d = Except.error (ValidationError
        "parse_copilot_response" "no actionable fix found in AI response")) ∧
    (∀ r, parseResponse raw d = Except.ok r → r.Confidence ≠ "HEALTHY" →
      containsStatusHealthy raw = false → r.FixedContent ≠ "") := by
  constructor
  · intro hconf hm hf
    rw [parseResponse]
    simp [hconf, hm, hf]
  · intro r hok hconf hm
    rw [parseResponse] at hok
    by_cases hh : confidenceOf raw = "HEALTHY"
    · simp [hh, hm] at hok
      rw [← hok] at hconf
      simp [hh] at hconf
    · by_cases hf : fixedContentOf raw = ""
      · simp [hh, hm, hf] at hok
      · simp [hh, hm, hf] at hok
        rw [← hok]
        simp [hf]

/-- Witness for C1 (amended): a structureless reply is rejected, and a
reply with a fenced block parses with non-empty content. -/
theorem parseResponse_requires_substantiated_fix_witness :
    parseResponse "hello" "x.yml" = Except.error (ValidationError
      "parse_copilot_response" "no actionable fix found in AI response") ∧
    ({ Explanation := "CONFIDENCE: LOW\n```yaml\nname: CI\n```"
       FixedContent := "name: CI", TargetFile := "x.yml"
       Confidence := "LOW" } : DiagnosisResult).FixedContent ≠ "" :=
  ⟨(parseResponse_requires_substantiated_fix "hello" "x.yml").1
     (by decide) (by decide) (by decide),
   (parseResponse_requires_substantiated_fix
       "CONFIDENCE: LOW\n```yaml\nname: CI\n```" "x.yml").2
     { Explanation := "CONFIDENCE: LOW\n```yaml\nname: CI\n```"
       FixedContent := "name: CI", TargetFile := "x.yml"
       Confidence := "LOW" }
     (by decide) (by decide) (by decide)⟩

end GhSentinel
